import Mathlib

/-!
Verification of the structured block-arrow linear-system solver
(`utb_derivative_system`) benchmarked by
`speed_tests/second_deriv_exp/solve_system_speed.py`.

The repository ships only the benchmark harness; the class
`utb_derivative_system` itself (construction, `matrixformfull`, `solve`)
is an external collaborator of the visible file.  Those parts are
modelled from the specification: the data model `{G, A, B?, deriv}`,
the dense block-arrow materialization, and the Schur-complement
structured solve.  Exact rational arithmetic replaces floating point,
so "equal within tolerance" statements become exact equalities.
-/

open Matrix

/-- Computable nonsingular inverse over `ℚ`: `det⁻¹ • adjugate`.
When the determinant vanishes this returns the zero matrix (never used
on that branch: the solver raises an error first). -/
def qInv {n : Type*} [DecidableEq n] [Fintype n]
    (M : Matrix n n ℚ) : Matrix n n ℚ :=
  M.det⁻¹ • M.adjugate

theorem qInv_mul_self {n : Type*} [DecidableEq n] [Fintype n]
    (M : Matrix n n ℚ) (h : M.det ≠ 0) : M * qInv M = 1 := by
  rw [qInv, Matrix.mul_smul, Matrix.mul_adjugate, smul_smul,
    inv_mul_cancel₀ h, one_smul]

theorem self_mul_qInv {n : Type*} [DecidableEq n] [Fintype n]
    (M : Matrix n n ℚ) (h : M.det ≠ 0) : qInv M * M = 1 := by
  rw [qInv, Matrix.smul_mul, Matrix.adjugate_mul, smul_smul,
    inv_mul_cancel₀ h, one_smul]

/-- Modelled from the spec: the Structured System owned by
`utb_derivative_system` (absent from `src/`; only its benchmark caller
is given).  `G` holds the `N` local `ds×ds` diagonal blocks, `A` the
`dc` global coupling blocks, `B` the optional `N×dc×dc` cross tensor of
`ds×ds` blocks present only for second-derivative systems, and `deriv`
the Derivative-Order tag fixed at construction.  Shape invariants are
carried by the index types. -/
structure utb_derivative_system (N ds dc : ℕ) where
  G : Fin N → Matrix (Fin ds) (Fin ds) ℚ
  A : Fin dc → Matrix (Fin ds) (Fin ds) ℚ
  B : Option (Fin N → Fin dc → Fin dc → Matrix (Fin ds) (Fin ds) ℚ)
  deriv : ℕ

namespace utb_derivative_system

variable {N ds dc : ℕ}

/-- The block-diagonal local core of the dense form: `(i,i)` block `G i`,
zero off the block diagonal. -/
def denseLocal (S : utb_derivative_system N ds dc) :
    Matrix (Fin ds × Fin N) (Fin ds × Fin N) ℚ :=
  Matrix.blockDiagonal S.G

/-- Modelled from the spec: the local-row, global-column border block;
row block `i`, column block `j` embeds `A j`. -/
def denseUpper (S : utb_derivative_system N ds dc) :
    Matrix (Fin ds × Fin N) (Fin ds × Fin dc) ℚ :=
  Matrix.of fun p q => S.A q.2 p.1 q.1

/-- Modelled from the spec: the transpose position of the border;
row block `j`, column block `i` embeds `(A j)ᵀ`. -/
def denseLower (S : utb_derivative_system N ds dc) :
    Matrix (Fin ds × Fin dc) (Fin ds × Fin N) ℚ :=
  Matrix.of fun p q => S.A p.2 q.1 p.1

/-- Modelled from the spec: the `(global,global)` sub-block.  Following
the sum-of-per-observation quadratic-forms origin, block `(j,k)` sums
`(A j)ᵀ * A k` over the `N` local indices, and, when the cross tensor is
present, additionally accumulates `B i j k` over the local indices. -/
def denseGlobal (S : utb_derivative_system N ds dc) :
    Matrix (Fin ds × Fin dc) (Fin ds × Fin dc) ℚ :=
  (Matrix.of fun p q => ∑ _i : Fin N, ((S.A p.2)ᵀ * S.A q.2) p.1 q.1) +
    match S.B with
    | some b => Matrix.of fun p q => ∑ i : Fin N, b i p.2 q.2 p.1 q.1
    | none => 0

/-- Modelled from the spec: `matrixformfull`, the dense materialization
of the Structured System as a single square block-arrow matrix of side
`N·ds + dc·ds`. -/
def matrixformfull (S : utb_derivative_system N ds dc) :
    Matrix ((Fin ds × Fin N) ⊕ (Fin ds × Fin dc))
      ((Fin ds × Fin N) ⊕ (Fin ds × Fin dc)) ℚ :=
  Matrix.fromBlocks (denseLocal S) (denseUpper S) (denseLower S) (denseGlobal S)

/-- Errors the structured `solve` can raise (spec §7). -/
inductive SolveError
  | SingularLocalBlock
  | SingularReducedSystem
  deriving DecidableEq, Repr

/-- Step 1 pivot data: the block-diagonal matrix of local pivot
inverses `G i ⁻¹`, computed independently per local index. -/
def Dinv (S : utb_derivative_system N ds dc) :
    Matrix (Fin ds × Fin N) (Fin ds × Fin N) ℚ :=
  Matrix.blockDiagonal fun i => qInv (S.G i)

/-- Step 2: the reduced (Schur-complement) global system
`denseGlobal − L · D⁻¹ · U`; the product over the `N·ds` middle index
is the accumulation over all local indices. -/
def schurS (S : utb_derivative_system N ds dc) :
    Matrix (Fin ds × Fin dc) (Fin ds × Fin dc) ℚ :=
  denseGlobal S - denseLower S * Dinv S * denseUpper S

/-- Modelled from the spec: the elimination core of `solve` (steps 1–4
of §4.3), assuming all pivots exist.  The right-hand side is the block
data of the Structured System `R`; the result is the full dense
solution, assembled from its four blocks. -/
def solveX (M R : utb_derivative_system N ds dc) :
    Matrix ((Fin ds × Fin N) ⊕ (Fin ds × Fin dc))
      ((Fin ds × Fin N) ⊕ (Fin ds × Fin dc)) ℚ :=
  let X21 := qInv (schurS M) * (denseLower R - denseLower M * Dinv M * denseLocal R)
  let X22 := qInv (schurS M) * (denseGlobal R - denseLower M * Dinv M * denseUpper R)
  let X11 := Dinv M * (denseLocal R - denseUpper M * X21)
  let X12 := Dinv M * (denseUpper R - denseUpper M * X22)
  Matrix.fromBlocks X11 X12 X21 X22

/-- Modelled from the spec: `solve` — check the local pivots, check the
reduced system, then run the elimination.  A singular local pivot or a
singular reduced system surfaces as an error, never as a finite wrong
answer. -/
def solve (M R : utb_derivative_system N ds dc) :
    Except SolveError
      (Matrix ((Fin ds × Fin N) ⊕ (Fin ds × Fin dc))
        ((Fin ds × Fin N) ⊕ (Fin ds × Fin dc)) ℚ) :=
  if ∃ i, (M.G i).det = 0 then .error .SingularLocalBlock
  else if (schurS M).det = 0 then .error .SingularReducedSystem
  else .ok (solveX M R)

theorem denseLocal_mul_Dinv (S : utb_derivative_system N ds dc)
    (h : ∀ i, (S.G i).det ≠ 0) : denseLocal S * Dinv S = 1 := by
  rw [denseLocal, Dinv, ← Matrix.blockDiagonal_mul]
  have hfun : (fun i => S.G i * qInv (S.G i)) =
      fun _ => (1 : Matrix (Fin ds) (Fin ds) ℚ) :=
    funext fun i => qInv_mul_self _ (h i)
  rw [hfun]
  exact Matrix.blockDiagonal_one

theorem Dinv_mul_denseLocal (S : utb_derivative_system N ds dc)
    (h : ∀ i, (S.G i).det ≠ 0) : Dinv S * denseLocal S = 1 := by
  rw [denseLocal, Dinv, ← Matrix.blockDiagonal_mul]
  have hfun : (fun i => qInv (S.G i) * S.G i) =
      fun _ => (1 : Matrix (Fin ds) (Fin ds) ℚ) :=
    funext fun i => self_mul_qInv _ (h i)
  rw [hfun]
  exact Matrix.blockDiagonal_one

/-- Left cancellation across a product: if `A * B = 1` then
`A * (B * X) = X`. -/
theorem mul_cancel_chain {m n : Type*} [Fintype m] [DecidableEq m]
    {A B : Matrix m m ℚ}
    (h : A * B = 1) (X : Matrix m n ℚ) : A * (B * X) = X := by
  rw [← Matrix.mul_assoc, h, Matrix.one_mul]

/-- One column block of the elimination: solving the bordered system for
an arbitrary right-hand-side column pair `(V, W)` reproduces the
right-hand side when multiplied back by the operator's blocks. -/
theorem elim_col {p : Type} [Fintype p]
    (M : utb_derivative_system N ds dc)
    (hG : ∀ i, (M.G i).det ≠ 0) (hS : (schurS M).det ≠ 0)
    (V : Matrix (Fin ds × Fin N) p ℚ) (W : Matrix (Fin ds × Fin dc) p ℚ) :
    denseLocal M *
        (Dinv M * (V - denseUpper M *
          (qInv (schurS M) * (W - denseLower M * Dinv M * V)))) +
      denseUpper M * (qInv (schurS M) * (W - denseLower M * Dinv M * V)) = V ∧
    denseLower M *
        (Dinv M * (V - denseUpper M *
          (qInv (schurS M) * (W - denseLower M * Dinv M * V)))) +
      denseGlobal M * (qInv (schurS M) * (W - denseLower M * Dinv M * V)) = W := by
  have hc1 : ∀ {q : Type} [Fintype q] (X : Matrix (Fin ds × Fin N) q ℚ),
      denseLocal M * (Dinv M * X) = X := fun X =>
    mul_cancel_chain (denseLocal_mul_Dinv M hG) X
  have hc3 : ∀ {q : Type} [Fintype q] (X : Matrix (Fin ds × Fin dc) q ℚ),
      schurS M * (qInv (schurS M) * X) = X := fun X =>
    mul_cancel_chain (qInv_mul_self _ hS) X
  have hglob : denseGlobal M =
      schurS M + denseLower M * Dinv M * denseUpper M := by
    rw [schurS, sub_add_cancel]
  constructor
  · simp only [Matrix.mul_sub, Matrix.sub_mul, Matrix.mul_add, Matrix.add_mul,
      Matrix.mul_assoc, hc1, hc3]
    abel
  · rw [hglob]
    simp only [Matrix.mul_sub, Matrix.sub_mul, Matrix.mul_add, Matrix.add_mul,
      Matrix.mul_assoc, hc1, hc3]
    abel

/-- Modelled from the spec: the explicit block inverse of the dense
form, assembled from the same pivots the structured solve uses; it
exists exactly when every local pivot and the reduced system are
nonsingular.  Used to express that the Dense Oracle's answer is unique. -/
def denseFullInv (M : utb_derivative_system N ds dc) :
    Matrix ((Fin ds × Fin N) ⊕ (Fin ds × Fin dc))
      ((Fin ds × Fin N) ⊕ (Fin ds × Fin dc)) ℚ :=
  let Si := qInv (schurS M)
  Matrix.fromBlocks
    (Dinv M + Dinv M * denseUpper M * Si * denseLower M * Dinv M)
    (-(Dinv M * denseUpper M * Si))
    (-(Si * denseLower M * Dinv M)) Si

theorem denseFullInv_mul (M : utb_derivative_system N ds dc)
    (hG : ∀ i, (M.G i).det ≠ 0) (hS : (schurS M).det ≠ 0) :
    denseFullInv M * matrixformfull M = 1 := by
  have hc2 : ∀ {q : Type} [Fintype q] (X : Matrix (Fin ds × Fin N) q ℚ),
      Dinv M * (denseLocal M * X) = X := fun X =>
    mul_cancel_chain (Dinv_mul_denseLocal M hG) X
  have hc4 : ∀ {q : Type} [Fintype q] (X : Matrix (Fin ds × Fin dc) q ℚ),
      qInv (schurS M) * (schurS M * X) = X := fun X =>
    mul_cancel_chain (self_mul_qInv _ hS) X
  have hDiD : Dinv M * denseLocal M = 1 := Dinv_mul_denseLocal M hG
  have hSiSc : qInv (schurS M) * schurS M = 1 := self_mul_qInv _ hS
  have hglob : denseGlobal M =
      schurS M + denseLower M * Dinv M * denseUpper M := by
    rw [schurS, sub_add_cancel]
  rw [denseFullInv, matrixformfull, hglob, Matrix.fromBlocks_multiply,
    ← Matrix.fromBlocks_one]
  refine Matrix.fromBlocks_inj.mpr ⟨?_, ?_, ?_, ?_⟩ <;>
    · simp only [Matrix.mul_sub, Matrix.sub_mul, Matrix.mul_add, Matrix.add_mul,
        Matrix.neg_mul, Matrix.mul_neg, Matrix.mul_assoc, hc2, hc4, hDiD, hSiSc,
        Matrix.mul_one, Matrix.one_mul]
      abel

end utb_derivative_system

open utb_derivative_system in
/-- C1: for every valid operator system `M` and right-hand-side system
`R` sharing `N, ds, dc` (shape agreement is carried by the types), with
all local pivots and the reduced system nonsingular, the structured
`solve` succeeds and its result is exactly the Dense Oracle's solution
of `matrixformfull M · X = matrixformfull R`: it satisfies the dense
equation and is the unique matrix doing so.  Exact rational arithmetic
sharpens the spec's fixed relative tolerance to equality. -/
theorem C1_solve_agrees_with_dense_oracle {N ds dc : ℕ}
    (M R : utb_derivative_system N ds dc)
    (hG : ∀ i, (M.G i).det ≠ 0) (hS : (schurS M).det ≠ 0) :
    solve M R = .ok (solveX M R) ∧
    matrixformfull M * solveX M R = matrixformfull R ∧
    ∀ X, matrixformfull M * X = matrixformfull R → X = solveX M R := by
  have hnex : ¬∃ i, (M.G i).det = 0 := by
    rintro ⟨i, hi⟩; exact hG i hi
  have hmain : matrixformfull M * solveX M R = matrixformfull R := by
    have h1 := elim_col M hG hS (denseLocal R) (denseLower R)
    have h2 := elim_col M hG hS (denseUpper R) (denseGlobal R)
    rw [solveX, matrixformfull, matrixformfull, Matrix.fromBlocks_multiply]
    exact Matrix.fromBlocks_inj.mpr ⟨h1.1, h2.1, h1.2, h2.2⟩
  refine ⟨?_, hmain, ?_⟩
  · rw [solve, if_neg hnex, if_neg hS]
  · intro X hX
    have hinv := denseFullInv_mul M hG hS
    calc X = 1 * X := (Matrix.one_mul X).symm
      _ = denseFullInv M * matrixformfull M * X := by rw [hinv]
      _ = denseFullInv M * (matrixformfull M * X) := Matrix.mul_assoc _ _ _
      _ = denseFullInv M * (matrixformfull M * solveX M R) := by rw [hX, hmain]
      _ = denseFullInv M * matrixformfull M * solveX M R := (Matrix.mul_assoc _ _ _).symm
      _ = solveX M R := by rw [hinv, Matrix.one_mul]

/-- A concrete 1-block operator system (`N = ds = dc = 1`): local pivot
`[[2]]`, global coupling `[[1]]`, first-derivative form with no `B`. -/
def sampleM : utb_derivative_system 1 1 1 :=
  ⟨fun _ => Matrix.of fun _ _ => 2, fun _ => Matrix.of fun _ _ => 1, none, 1⟩

/-- A concrete right-hand-side system matching `sampleM`'s shapes. -/
def sampleR : utb_derivative_system 1 1 1 :=
  ⟨fun _ => Matrix.of fun _ _ => 1, fun _ => Matrix.of fun _ _ => 3, none, 1⟩

theorem sampleM_pivots : ∀ i, ((sampleM.G) i).det ≠ 0 := by
  intro i
  simp [sampleM, Matrix.det_fin_one]

instance uniqueFinOnePair : Unique (Fin 1 × Fin 1) where
  default := (0, 0)
  uniq p := by
    rcases p with ⟨a, b⟩
    rw [Subsingleton.elim a 0, Subsingleton.elim b 0]
    rfl

theorem sampleM_schur : (utb_derivative_system.schurS sampleM).det ≠ 0 := by
  rw [Matrix.det_unique]
  norm_num [sampleM, utb_derivative_system.schurS, utb_derivative_system.denseGlobal,
    utb_derivative_system.denseLower, utb_derivative_system.denseUpper,
    utb_derivative_system.Dinv, qInv, Matrix.sub_apply, Matrix.add_apply,
    Matrix.mul_apply, Matrix.smul_apply, Matrix.blockDiagonal_apply,
    Matrix.adjugate_subsingleton, Matrix.det_fin_one, Matrix.one_apply,
    Matrix.transpose_apply, Finset.univ_unique, Finset.sum_singleton]

/-- Witness for C1 at the concrete pair `(sampleM, sampleR)`. -/
theorem C1_witness :
    utb_derivative_system.solve sampleM sampleR =
      .ok (utb_derivative_system.solveX sampleM sampleR) ∧
    utb_derivative_system.matrixformfull sampleM *
        utb_derivative_system.solveX sampleM sampleR =
      utb_derivative_system.matrixformfull sampleR ∧
    ∀ X, utb_derivative_system.matrixformfull sampleM * X =
        utb_derivative_system.matrixformfull sampleR →
      X = utb_derivative_system.solveX sampleM sampleR :=
  C1_solve_agrees_with_dense_oracle sampleM sampleR sampleM_pivots sampleM_schur

/-- C2: `matrixformfull` is a single square dense matrix of side
`N·ds + dc·ds`, and its `(i,i)` diagonal block is `G i` for every local
index `i`. -/
theorem C2_matrixformfull_shape_and_diagonal {N ds dc : ℕ}
    (S : utb_derivative_system N ds dc) :
    Fintype.card ((Fin ds × Fin N) ⊕ (Fin ds × Fin dc)) = N * ds + dc * ds ∧
      ∀ (i : Fin N) (a b : Fin ds),
        S.matrixformfull (Sum.inl (a, i)) (Sum.inl (b, i)) = S.G i a b := by
  constructor
  · simp [Fintype.card_sum, Fintype.card_prod, Nat.mul_comm]
  · intro i a b
    simp [utb_derivative_system.matrixformfull, utb_derivative_system.denseLocal,
      Matrix.blockDiagonal_apply]

namespace utb_derivative_system

/-- With the cross tensor filled with zeros, the global block reduces to
the `A`-only form: the `B` accumulation contributes nothing. -/
theorem denseGlobal_zero_tensor {N ds dc : ℕ}
    (G : Fin N → Matrix (Fin ds) (Fin ds) ℚ)
    (A : Fin dc → Matrix (Fin ds) (Fin ds) ℚ) (d e : ℕ) :
    denseGlobal ⟨G, A, some fun _ _ _ => 0, d⟩ = denseGlobal ⟨G, A, none, e⟩ := by
  rw [denseGlobal, denseGlobal]
  congr 1
  ext p q
  simp

end utb_derivative_system

open utb_derivative_system in
/-- C3: solving with Derivative-Order 2 and an all-zero cross tensor `B`
(on both the operator and the right-hand side) yields exactly the same
result as solving with Derivative-Order 1 and no `B`: zero
cross-coupling contributes nothing anywhere in the pipeline. -/
theorem C3_zero_B_matches_order_one {N ds dc : ℕ}
    (G RG : Fin N → Matrix (Fin ds) (Fin ds) ℚ)
    (A RA : Fin dc → Matrix (Fin ds) (Fin ds) ℚ) :
    solve (⟨G, A, some fun _ _ _ => 0, 2⟩ : utb_derivative_system N ds dc)
        ⟨RG, RA, some fun _ _ _ => 0, 2⟩ =
      solve (⟨G, A, none, 1⟩ : utb_derivative_system N ds dc) ⟨RG, RA, none, 1⟩ := by
  have hM := denseGlobal_zero_tensor G A 2 1
  have hR := denseGlobal_zero_tensor RG RA 2 1
  have hschur :
      schurS (⟨G, A, some fun _ _ _ => 0, 2⟩ : utb_derivative_system N ds dc) =
        schurS ⟨G, A, none, 1⟩ := by
    rw [schurS, schurS, hM]
    rfl
  have hX :
      solveX (⟨G, A, some fun _ _ _ => 0, 2⟩ : utb_derivative_system N ds dc)
          ⟨RG, RA, some fun _ _ _ => 0, 2⟩ =
        solveX (⟨G, A, none, 1⟩ : utb_derivative_system N ds dc)
          ⟨RG, RA, none, 1⟩ := by
    rw [solveX, solveX, hschur, hR]
    rfl
  rw [solve, solve, hschur, hX]

open utb_derivative_system in
/-- C5: when some local pivot `G i` is singular (zero determinant, e.g.
the zero block), `solve` deterministically fails with
`SingularLocalBlock` instead of returning a finite wrong answer. -/
theorem C5_singular_pivot_raises {N ds dc : ℕ}
    (M R : utb_derivative_system N ds dc)
    (h : ∃ i, (M.G i).det = 0) :
    solve M R = .error .SingularLocalBlock := by
  rw [solve, if_pos h]

/-- An operator system whose single local block is the zero matrix. -/
def singularM : utb_derivative_system 1 1 1 :=
  ⟨fun _ => 0, fun _ => Matrix.of fun _ _ => 1, none, 1⟩

/-- Witness for C5: solving with the zero local block reports
`SingularLocalBlock`. -/
theorem C5_witness :
    utb_derivative_system.solve singularM sampleR =
      .error utb_derivative_system.SolveError.SingularLocalBlock :=
  C5_singular_pivot_raises singularM sampleR
    ⟨0, by simp [singularM, Matrix.det_fin_one]⟩

open utb_derivative_system in
/-- C8: `solve` is deterministic: two calls on the same unchanged inputs
produce identical results (the model has no hidden state: the outcome is
a function of the two systems' block data alone). -/
theorem C8_solve_deterministic {N ds dc : ℕ}
    (M R : utb_derivative_system N ds dc)
    (r₁ r₂ : Except SolveError
      (Matrix ((Fin ds × Fin N) ⊕ (Fin ds × Fin dc))
        ((Fin ds × Fin N) ⊕ (Fin ds × Fin dc)) ℚ))
    (h₁ : solve M R = r₁) (h₂ : solve M R = r₂) : r₁ = r₂ :=
  h₁.symm.trans h₂

/-- Witness for C8 at the concrete pair `(sampleM, sampleR)`. -/
theorem C8_witness :
    utb_derivative_system.solve sampleM sampleR =
      utb_derivative_system.solve sampleM sampleR :=
  C8_solve_deterministic sampleM sampleR _ _ rfl rfl

/-- Errors raised at construction (spec §7). -/
inductive BuildError
  | ShapeMismatch
  | InvalidConfiguration
  deriving DecidableEq, Repr

/-- A raw block is well-shaped when it is a `ds×ds` grid of entries. -/
def matShapeOk (ds : ℕ) (m : List (List ℚ)) : Bool :=
  m.length == ds && m.all fun row => row.length == ds

/-- Shape invariants of §3: `G` has `N` blocks, `A` has `dc` blocks,
every block is `ds×ds`, and `B` (when supplied) is an `N×dc×dc` grid of
`ds×ds` blocks. -/
def shapesOk (N ds dc : ℕ) (G A : List (List (List ℚ)))
    (B : Option (List (List (List (List (List ℚ)))))) : Bool :=
  (G.length == N && G.all (matShapeOk ds)) &&
  (A.length == dc && A.all (matShapeOk ds)) &&
  (match B with
   | none => true
   | some b =>
     b.length == N && b.all fun bi =>
       bi.length == dc && bi.all fun bij =>
         bij.length == dc && bij.all (matShapeOk ds))

/-- Read a validated raw block into a matrix. -/
def listMat (ds : ℕ) (m : List (List ℚ)) : Matrix (Fin ds) (Fin ds) ℚ :=
  Matrix.of fun a b => (m.getD a.val []).getD b.val 0

/-- Modelled from the spec: construction of a `utb_derivative_system`
from raw block data and declared sizes (the class itself is absent from
`src/`).  The Derivative-Order must be 1 or 2 and `B` may accompany
only Derivative-Order 2 (`InvalidConfiguration` otherwise); the block
counts and dimensions must match the declared `N`, `ds`, `dc`
(`ShapeMismatch` otherwise); only then are the blocks stored. -/
def mkSystem (N ds dc : ℕ) (G A : List (List (List ℚ)))
    (B : Option (List (List (List (List (List ℚ)))))) (deriv : ℕ) :
    Except BuildError (utb_derivative_system N ds dc) :=
  if deriv ≠ 1 ∧ deriv ≠ 2 then .error .InvalidConfiguration
  else if deriv = 1 ∧ B.isSome then .error .InvalidConfiguration
  else if ¬ shapesOk N ds dc G A B then .error .ShapeMismatch
  else .ok ⟨fun i => listMat ds (G.getD i.val []),
            fun j => listMat ds (A.getD j.val []),
            B.map fun b i j k =>
              listMat ds (((b.getD i.val []).getD j.val []).getD k.val []),
            deriv⟩

/-- C4: supplying a `B` tensor together with Derivative-Order 1 is
rejected at construction with `InvalidConfiguration`, whatever the
block data. -/
theorem C4_B_with_order_one_invalid (N ds dc : ℕ)
    (G A : List (List (List ℚ)))
    (b : List (List (List (List (List ℚ))))) :
    mkSystem N ds dc G A (some b) 1 = .error .InvalidConfiguration := by
  rw [mkSystem, if_neg, if_pos ⟨rfl, rfl⟩]
  simp

/-- C6: when the raw block data disagrees with the declared `N`, `ds`,
`dc` (wrong count or wrong dimensions), and the Derivative-Order
configuration itself is admissible (so that the configuration check does
not fire first), construction fails eagerly with `ShapeMismatch`; the
data is never truncated into a system. -/
theorem C6_shape_mismatch_rejected (N ds dc : ℕ)
    (G A : List (List (List ℚ)))
    (B : Option (List (List (List (List (List ℚ)))))) (deriv : ℕ)
    (hderiv : deriv = 1 ∨ deriv = 2)
    (hB : deriv = 1 → B = none)
    (hshape : shapesOk N ds dc G A B = false) :
    mkSystem N ds dc G A B deriv = .error .ShapeMismatch := by
  rw [mkSystem, if_neg, if_neg, if_pos]
  · simp [hshape]
  · rintro ⟨h1, hs⟩
    rw [hB h1] at hs
    simp at hs
  · rintro ⟨h1, h2⟩
    rcases hderiv with h | h
    · exact h1 h
    · exact h2 h

/-- Witness for C6: declaring `N = 2` but supplying a single local
block (`G` of length `N − 1`) is a `ShapeMismatch`. -/
theorem C6_witness :
    mkSystem 2 1 1 [[[1]]] [[[1]]] none 1 = .error BuildError.ShapeMismatch :=
  C6_shape_mismatch_rejected 2 1 1 [[[1]]] [[[1]]] none 1 (Or.inl rfl)
    (fun _ => rfl) (by decide)

/-- Outcome of the harness's first construction attempt inside one
trial of `solve_system_speed.py`: either the name `B1` was never bound
and Python raises `NameError` when evaluating the constructor's
argument list, or the constructor is reached with the bound `B1`
(`none` models Python's `None`, `some ()` a freshly drawn tensor). -/
inductive HarnessOutcome
  | nameError
  | callsConstructor (B : Option Unit)
  deriving DecidableEq, Repr

/-- The harness's conditional assignment of `B1`
(solve_system_speed.py, lines 34–39) followed by the first constructor
call (line 41): `B1 = None` when `der == 1` or `includeB is False`,
`B1 = rand(N,dc,dc,ds,ds)` when `der == 2` and `includeB is True`, and
otherwise no branch runs, `B1` stays unbound, and evaluating `B1` in
`utb_derivative_system(G1, A1, B1, deriv=der)` raises `NameError`. -/
def harnessFirstConstruction (der : ℕ) (includeB : Bool) : HarnessOutcome :=
  if der = 1 ∨ includeB = false then .callsConstructor none
  else if der = 2 ∧ includeB = true then .callsConstructor (some ())
  else .nameError

/-- C10: with `includeB = True` and `der` outside `{1, 2}`, neither
branch of the harness's `B1` assignment runs, so the first construction
attempt dies with `NameError` — before the constructor (which, as the
second conjunct shows, would have reported `InvalidConfiguration` for
such a Derivative-Order) can run at all. -/
theorem C10_unbound_B_name_error (der : ℕ) (h1 : der ≠ 1) (h2 : der ≠ 2) :
    harnessFirstConstruction der true = .nameError ∧
    ∀ (N ds dc : ℕ) (G A : List (List (List ℚ)))
      (B : Option (List (List (List (List (List ℚ)))))),
      mkSystem N ds dc G A B der = .error .InvalidConfiguration := by
  constructor
  · rw [harnessFirstConstruction, if_neg, if_neg]
    · rintro ⟨hd, -⟩
      exact h2 hd
    · rintro (hd | hb)
      · exact h1 hd
      · exact absurd hb (by decide)
  · intro N ds dc G A B
    rw [mkSystem, if_pos ⟨h1, h2⟩]

/-- Witness for C10 at `der = 3`: the harness raises `NameError`, and
the constructor alone would have said `InvalidConfiguration`. -/
theorem C10_witness :
    harnessFirstConstruction 3 true = HarnessOutcome.nameError ∧
    mkSystem 1 1 1 [[[1]]] [[[1]]] none 3 =
      .error BuildError.InvalidConfiguration :=
  ⟨(C10_unbound_B_name_error 3 (by decide) (by decide)).1,
   (C10_unbound_B_name_error 3 (by decide) (by decide)).2 1 1 1
     [[[1]]] [[[1]]] none⟩
